import Mathlib

/-!
# SPARK Career Navigator — verification of the intent-routing / query engine

Shallow embedding, in Lean 4, of the pure logic of `src/main.py`
(`CareerNavigator`) and the schema facts of `src/db_setup.py` that the
claims depend on.  Database tables are modelled as in-memory lists of
rows; SQL aggregate queries become list/finset computations; the fuzzy
string scorer of `rapidfuzz` is an abstract parameter
`score : String → Nat` (the score of each candidate name against the
fixed query).  A Python `set` of strings is modelled as a duplicate-free
list built with `List.dedup`, and Python `sorted(...)` as
`List.insertionSort (· ≤ ·)` over the lexicographic order on `String`.
-/

namespace Spark

/-- Python `sorted(xs)` on a list of skill names: insertion sort by the
lexicographic order on `String`. -/
def pySorted (xs : List String) : List String :=
  List.insertionSort (· ≤ ·) xs

/-- Embedding of `CareerNavigator.analyze_skill_gap` (src/main.py:598-602):

```python
current = set(current_skills)
req_unique = {s[0] for s in required_skills}
mand = {s[0] for s in required_skills if s[1] == 'Mandatory'}
return sorted(list(mand - current)), sorted(list((req_unique - mand) - current))
```

`required_skills` is a list of `(skillName, importance)` pairs.  The set
comprehensions become `map`/`filter` followed by `dedup`; the set
differences become membership filters. -/
def analyze_skill_gap (current_skills : List String)
    (required_skills : List (String × String)) : List String × List String :=
  let req_unique : List String := (required_skills.map Prod.fst).dedup
  let mand : List String :=
    ((required_skills.filter (fun s => s.2 = "Mandatory")).map Prod.fst).dedup
  (pySorted (mand.filter (fun s => s ∉ current_skills)),
   pySorted (req_unique.filter (fun s => s ∉ mand ∧ s ∉ current_skills)))

/-! ## Identity resolver (`get_user_profile`, src/main.py:532-546) -/

/-- The verdicts the identity resolver can report.  The Python function
returns a pair `(status_string, row)`; we record the status together
with the matched `ProfileID` (the row is fetched by that id).
`AMBIGUOUS` is part of the spec's contract and is included here so that
statements about it can be made. -/
inductive Verdict where
  | NO_MATCH : Verdict
  | UNIQUE_MATCH : Nat → Verdict
  | AMBIGUOUS : List Nat → Verdict
  | ERROR : Verdict
  deriving DecidableEq

/-- One step of building a Python dict from an association sequence:
an existing key keeps its position but its value is overwritten, a new
key is appended. -/
def dictInsert (d : List (String × Nat)) (k : String) (v : Nat) :
    List (String × Nat) :=
  if d.any (fun p => p.1 = k) then
    d.map (fun p => if p.1 = k then (k, v) else p)
  else d ++ [(k, v)]

/-- `profile_choices = {name: pid for pid, name in all_profiles}`
(src/main.py:538). -/
def profileChoices (profiles : List (Nat × String)) : List (String × Nat) :=
  profiles.foldl (fun d pr => dictInsert d pr.2 pr.1) []

/-- `process.extract(full_name, keys, scorer=fuzz.token_sort_ratio, limit=1)`
(src/main.py:539): the single best-scoring candidate name together with
its score; an earlier candidate wins a tie.  The scorer is abstracted as
`score : String → Nat`, the similarity of each candidate name against
the fixed input name. -/
def best1 (score : String → Nat) (keys : List String) : Option (String × Nat) :=
  keys.foldl (fun acc c =>
    match acc with
    | none => some (c, score c)
    | some (b, s) => if score c > s then some (c, score c) else some (b, s)) none

/-- Embedding of `CareerNavigator.get_user_profile` (src/main.py:532-546):
fetch all `(ProfileID, FullName)` pairs, build the name-to-id dict, take
the single best fuzzy match (`limit=1`), return `NO_MATCH` when there is
none or its score is below 80, otherwise look the name up in the dict
and return `UNIQUE_MATCH` with that profile's id.  The `ERROR` arm
corresponds to the Python `except` clause (a failed dict lookup cannot
actually happen, which is proved below). -/
def get_user_profile (score : String → Nat) (profiles : List (Nat × String)) :
    Verdict :=
  let choices := profileChoices profiles
  match best1 score (choices.map Prod.fst) with
  | none => Verdict.NO_MATCH
  | some (b, s) =>
    if s < 80 then Verdict.NO_MATCH
    else
      match choices.find? (fun p => p.1 = b) with
      | some p => Verdict.UNIQUE_MATCH p.2
      | none => Verdict.ERROR

/-- The concrete scorer of the spec's scenario for claim C1:
"John Smith" scores 82 and "Jonathan Lee" scores 81 against the input
"Jon"; both clear the base cutoff 80 and neither exceeds 95. -/
def scoreJon (name : String) : Nat :=
  if name = "John Smith" then 82 else if name = "Jonathan Lee" then 81 else 0

/-! ## Match-percentage engine
(`find_matching_candidates` src/main.py:475-493,
`find_matching_jobs` src/main.py:515-530) -/

/-- A profile row of the Postgres store together with its skill names
(via `Profile_Skills_Mapping` joined to `Skills`). -/
structure Profile where
  profileId : Nat
  fullName : String
  headline : String
  years : Nat
  company : String
  location : String
  skills : List String
  deriving DecidableEq

/-- One `Job_Skills_Mapping` row of the MySQL store joined to `Skills`:
the skill's id, its name, and the row's importance tag. -/
structure SkillRow where
  skillId : Nat
  skillName : String
  importance : String
  deriving DecidableEq

/-- A job row of the MySQL store together with its skill-mapping rows. -/
structure Job where
  jobId : Nat
  title : String
  company : String
  location : String
  skillRows : List SkillRow
  deriving DecidableEq

/-- MySQL `ROUND(q, 2)` for the nonnegative rationals appearing here:
round half up at the second decimal place. -/
def round2 (q : ℚ) : ℚ := (round (q * 100) : ℤ) / 100

/-- The percentage computed per profile by `find_matching_candidates`
(src/main.py:483): `COUNT(DISTINCT s.SkillName) * 100.0 / %s` where the
`WHERE` clause keeps the profile's skill rows whose name is in the
required list and the bound parameter is `len(required_skills)`.
No rounding is applied. -/
def candidateMatchPercentage (profileSkills : List String)
    (required_skills : List String) : ℚ :=
  (((profileSkills.filter (fun s => s ∈ required_skills)).dedup.length : ℚ) * 100) /
    (required_skills.length : ℚ)

/-- The unrounded percentage of `find_matching_jobs` (src/main.py:521,525):
`SUM(CASE WHEN s.SkillName IN (user_skills) THEN 1 ELSE 0 END)` over the
job's mapping rows, divided by `COUNT(DISTINCT jsm.SkillID)`, times 100.
The `HAVING` clause compares this raw value against the threshold. -/
def jobRawPercentage (user_skills : List String) (rows : List SkillRow) : ℚ :=
  (((rows.filter (fun r => r.skillName ∈ user_skills)).length : ℚ) /
    (((rows.map SkillRow.skillId).dedup.length : ℚ))) * 100

/-- The percentage reported by `find_matching_jobs` (src/main.py:521):
the raw value rounded to 2 decimal places by `ROUND(..., 2)`. -/
def jobMatchPercentage (user_skills : List String) (rows : List SkillRow) : ℚ :=
  round2 (jobRawPercentage user_skills rows)

/-- The match-percentage formula in the words of the spec (§4.3), for
comparison with the code: distinct names of `S ∩ T` over distinct names
of `T`, times 100, rounded to 2 decimal places. -/
def specMatchPercentage (S T : List String) : ℚ :=
  round2 ((((S.filter (fun s => s ∈ T)).dedup.length : ℚ) /
    (T.dedup.length : ℚ)) * 100)

/-- Descending order on rows carrying a percentage in their second
component (`ORDER BY ... DESC`). -/
def pctGE {α : Type} (a b : α × ℚ) : Prop := b.2 ≤ a.2

instance {α : Type} : DecidableRel (@pctGE α) :=
  fun a b => inferInstanceAs (Decidable (b.2 ≤ a.2))

instance {α : Type} : IsTotal (α × ℚ) pctGE :=
  ⟨fun a b => le_total b.2 a.2⟩

instance {α : Type} : IsTrans (α × ℚ) pctGE :=
  ⟨fun _ _ _ h1 h2 => le_trans h2 h1⟩

/-- Embedding of `CareerNavigator.find_matching_candidates`
(src/main.py:475-493): guard on an empty required list, keep each
profile having at least one skill row matching the `IN` list (the inner
join), whose percentage clears the threshold (`HAVING`), order by
percentage descending and keep at most 50 rows (`LIMIT 50`). -/
def find_matching_candidates (profiles : List Profile)
    (required_skills : List String) (threshold : ℚ) : List (Profile × ℚ) :=
  if required_skills = [] then []
  else
    let rows := profiles.filterMap (fun p =>
      if (p.skills.filter (fun s => s ∈ required_skills)) = [] then none
      else
        let pct := candidateMatchPercentage p.skills required_skills
        if threshold ≤ pct then some (p, pct) else none)
    (List.insertionSort pctGE rows).take 50

/-- Embedding of `CareerNavigator.find_matching_jobs`
(src/main.py:515-530): guard on an empty skill list, keep each job with
at least one mapping row naming a user skill (`HAVING SUM(...) > 0`)
whose raw percentage clears the threshold, report the rounded
percentage, order by it descending, keep at most 50 rows. -/
def find_matching_jobs (jobs : List Job) (user_skills : List String)
    (threshold : ℚ) : List (Job × ℚ) :=
  if user_skills = [] then []
  else
    let rows := jobs.filterMap (fun j =>
      if 0 < (j.skillRows.filter (fun r => r.skillName ∈ user_skills)).length ∧
          threshold ≤ jobRawPercentage user_skills j.skillRows then
        some (j, jobMatchPercentage user_skills j.skillRows)
      else none)
    (List.insertionSort pctGE rows).take 50

/-! ## Skill forecast target resolution (`run_skill_forecast`, src/main.py:616-638) -/

/-- The target-skill resolution step of `run_skill_forecast`
(src/main.py:622-624):

```python
skills = self.get_target_job_skills(target_job_title, "%")
if not skills: return f"No market data for '{target_job_title}'."
target_skills = list(set([s[0] for s in skills]))
```

`skills` is the list of `(SkillName, Importance)` rows for the title;
`none` models the early "No market data" return; the Python
`list(set(...))` keeps every distinct skill name (modelled here in
first-occurrence order, which is all the downstream queries can observe
of a Python set). -/
def run_skill_forecast_targets (skills : List (String × String)) :
    Option (List String) :=
  if skills = [] then none
  else some (skills.map Prod.fst).dedup

/-- The spec's resolution rule (§4.5 step 1), for comparison with the
code: prefer the subset of the title's required skills marked Mandatory,
and only when that subset is empty fall back to the full set. -/
def forecastTargetsSpec (skills : List (String × String)) :
    Option (List String) :=
  if skills = [] then none
  else
    let mand := ((skills.filter (fun s => s.2 = "Mandatory")).map Prod.fst).dedup
    if mand = [] then some (skills.map Prod.fst).dedup else some mand

/-! ## Intent router dispatch loop (`execute_general_query`, src/main.py:129-171) -/

/-- What a handler can return: a plain message, a message plus a tabular
result, or Python `None`. -/
inductive HandlerResult where
  | msg : String → HandlerResult
  | msgTable : String → List (List String) → HandlerResult
  | nothing : HandlerResult
  deriving DecidableEq

/-- Python truthiness of a handler's return value: `None` and the empty
string are falsy, a nonempty string and any (message, table) pair are
truthy. -/
def handlerTruthy : HandlerResult → Bool
  | HandlerResult.msg s => s ≠ ""
  | HandlerResult.msgTable _ _ => true
  | HandlerResult.nothing => false

/-- The dispatch loop of `execute_general_query` (src/main.py:134-165),
abstracted over the parsed task type `τ` and over the dispatch table
`handle` (which sends one task to its handler, the canned
"Sorry, I can only answer..." message standing behind unknown intents):
tasks are processed strictly in list order and each truthy result is
appended to the output. -/
def execute_general_query_loop {τ : Type} (handle : τ → HandlerResult) :
    List τ → List HandlerResult
  | [] => []
  | t :: ts =>
    let r := handle t
    if handlerTruthy r then r :: execute_general_query_loop handle ts
    else execute_general_query_loop handle ts

/-! ## Analytics dispatch (`run_analytics_query`, src/main.py:174-266) -/

/-- The entity slots `run_analytics_query` reads from a parsed task
(src/main.py:175-181).  `limit` defaults to 10 via
`params.get("limit", 10)` and is therefore a plain `Nat`. -/
structure AnalyticsParams where
  metric : Option String
  target_table : Option String
  group_by : Option String
  target_skill : Option (List String)
  min_experience : Option Nat
  limit : Nat
  target_job : Option String
  company_name : Option String
  location : Option (List String)
  deriving DecidableEq

/-- Python truthiness of the `target_skill` slot: `None` and `[]` are
falsy. -/
def skillListTruthy : Option (List String) → Bool
  | none => false
  | some l => !l.isEmpty

/-- Which calculation `run_analytics_query` dispatches to.  Each arm
stands for one of the return statements of src/main.py:174-261; the SQL
bodies are irrelevant to claim C7 and are abstracted into the arm's
arguments. -/
inductive AnalyticsResult where
  | avgExperienceForSkill : String → AnalyticsResult
  | topCompaniesByHeadcount : Option Nat → Nat → AnalyticsResult
  | headcountByHeadline : Option String → AnalyticsResult
  | topLocationsForTitle : String → AnalyticsResult
  | topMandatorySkillsForTitle : String → AnalyticsResult
  | jobSearchRedirect : Option String → Option (List String) →
      Option (List String) → AnalyticsResult
  | supplyDemandCompare : String → AnalyticsResult
  | noCalculationModule : AnalyticsResult
  deriving DecidableEq

/-- Embedding of the branch structure of
`CareerNavigator.run_analytics_query` (src/main.py:183-261).  The
`PROFILES` block tries its three calculations in order; a `JOBS` request
that matches neither location- nor skill-ranking falls into the
catch-all redirect to `find_jobs_by_criteria` (src/main.py:241-245); the
`COMPARE` branch is reached for any remaining table; only after all of
these does the function return the "no calculation module" message
(src/main.py:261). -/
def run_analytics_query (p : AnalyticsParams) : AnalyticsResult :=
  if p.target_table = some "PROFILES" ∧ p.metric = some "AVG" ∧
      skillListTruthy p.target_skill then
    AnalyticsResult.avgExperienceForSkill ((p.target_skill.getD []).headI)
  else if p.target_table = some "PROFILES" ∧
      (p.metric = some "RANK" ∨ p.metric = some "COUNT") ∧
      p.group_by = some "Company" then
    AnalyticsResult.topCompaniesByHeadcount p.min_experience p.limit
  else if p.target_table = some "PROFILES" ∧
      (p.metric = some "RANK" ∨ p.metric = some "COUNT") ∧
      p.group_by = some "Headline" then
    AnalyticsResult.headcountByHeadline p.target_job
  else if p.target_table = some "JOBS" ∧ p.metric = some "RANK" ∧
      p.group_by = some "Location" then
    AnalyticsResult.topLocationsForTitle (p.target_job.getD "")
  else if p.target_table = some "JOBS" ∧ p.metric = some "RANK" ∧
      p.group_by = some "Skill" then
    AnalyticsResult.topMandatorySkillsForTitle (p.target_job.getD "")
  else if p.target_table = some "JOBS" then
    AnalyticsResult.jobSearchRedirect p.company_name p.location p.target_skill
  else if p.metric = some "COMPARE" then
    AnalyticsResult.supplyDemandCompare ((p.target_skill.getD []).headI)
  else AnalyticsResult.noCalculationModule

/-! ## Job CRUD skill-mapping inserts (`add_job` src/main.py:716-735,
`update_job` src/main.py:737-756, schema db_setup.py:208-215) -/

/-- `skill_id_map = {name: sid for sid, name in cur.fetchall()}`
(src/main.py:725): the rows of the MySQL `Skills` table whose name is in
the submitted list, as a Python dict keyed by name. -/
def jobSkillIdMap (skillsTable : List (Nat × String)) (skills : List String) :
    List (String × Nat) :=
  (skillsTable.filter (fun r => r.2 ∈ skills)).foldl
    (fun d r => dictInsert d r.2 r.1) []

/-- Python `dict.get(k)`: the value stored at `k`, if any. -/
def lookupName (d : List (String × Nat)) (k : String) : Option Nat :=
  (d.find? (fun p => p.1 = k)).map Prod.snd

/-- `importance_map.get(skill_name, 'Preferred')` (src/main.py:728). -/
def importanceOf (m : List (String × String)) (k : String) : String :=
  ((m.find? (fun p => p.1 = k)).map Prod.snd).getD "Preferred"

/-- The `(SkillID, Importance)` rows `add_job` inserts into
`Job_Skills_Mapping` for the new job (src/main.py:722-730): one insert
per element of the submitted `skills` list whose name exists in the
`Skills` table.  The MySQL table (db_setup.py:208-215) has the surrogate
primary key `MapID` and no uniqueness constraint on `(JobID, SkillID)`,
so every such insert succeeds. -/
def add_job_mapping_rows (skillsTable : List (Nat × String))
    (skills : List String) (importance_map : List (String × String)) :
    List (Nat × String) :=
  let m := jobSkillIdMap skillsTable skills
  skills.filterMap (fun name =>
    (lookupName m name).map (fun sid => (sid, importanceOf importance_map name)))

/-- The rows `update_job` inserts for the job after deleting its old
mapping rows (src/main.py:742-751) — the same per-occurrence loop as
`add_job`. -/
def update_job_mapping_rows (skillsTable : List (Nat × String))
    (skills : List String) (importance_map : List (String × String)) :
    List (Nat × String) :=
  let m := jobSkillIdMap skillsTable skills
  skills.filterMap (fun name =>
    (lookupName m name).map (fun sid => (sid, importanceOf importance_map name)))

/-! ## Profile store CRUD (`register_new_user` src/main.py:664-679,
`delete_profile` src/main.py:706-714,
`get_all_profiles_data` src/main.py:772-778) -/

/-- A row of the Postgres `Profiles` table (db_setup.py:108-117). -/
structure PGProfile where
  profileId : Nat
  fullName : String
  headline : String
  years : Nat
  company : String
  location : String
  deriving DecidableEq

/-- The Postgres store: the `Skills` table as `(SkillID, SkillName)`
rows, the `Profiles` table, the `Profile_Skills_Mapping` table as
`(ProfileID, SkillID)` rows, and the next serial `ProfileID`. -/
structure PGStore where
  skillsTable : List (Nat × String)
  profilesTable : List PGProfile
  mappingTable : List (Nat × Nat)
  nextProfileId : Nat
  deriving DecidableEq

/-- Embedding of `CareerNavigator.register_new_user` (src/main.py:664-679):
insert the profile row (`RETURNING ProfileID` gives the fresh serial id),
look up `SELECT SkillID FROM Skills WHERE SkillName IN (skills)` —
silently skipping submitted names absent from the `Skills` table — and
insert one mapping row per id found. -/
def register_new_user (st : PGStore) (name headline : String) (exp : Nat)
    (skills : List String) (company : String) (location : String) : PGStore :=
  let pid := st.nextProfileId
  let skill_ids :=
    if skills = [] then []
    else (st.skillsTable.filter (fun r => r.2 ∈ skills)).map Prod.fst
  { st with
    profilesTable := st.profilesTable ++ [⟨pid, name, headline, exp, company, location⟩]
    mappingTable := st.mappingTable ++ skill_ids.map (fun sid => (pid, sid))
    nextProfileId := pid + 1 }

/-- Embedding of `CareerNavigator.delete_profile` (src/main.py:706-714):
`DELETE FROM Profiles WHERE ProfileID = %s`; the mapping rows disappear
through the schema's `ON DELETE CASCADE` (db_setup.py:118-124). -/
def delete_profile (st : PGStore) (pid : Nat) : PGStore :=
  { st with
    profilesTable := st.profilesTable.filter (fun p => p.profileId ≠ pid)
    mappingTable := st.mappingTable.filter (fun m => m.1 ≠ pid) }

/-- The profile ids visible in the listing produced by
`get_all_profiles_data` (src/main.py:772-778), which returns one
aggregated row per profile. -/
def listedProfileIds (st : PGStore) : List Nat :=
  st.profilesTable.map PGProfile.profileId

/-- The skill names `get_all_profiles_data` aggregates
(`STRING_AGG(s.SkillName, ', ')`, src/main.py:774) for one profile: the
names of the skills its mapping rows point at. -/
def profileSkillNames (st : PGStore) (pid : Nat) : List String :=
  (st.mappingTable.filter (fun m => m.1 = pid)).filterMap
    (fun m => (st.skillsTable.find? (fun r => r.1 = m.2)).map Prod.snd)

/-! ## Helper lemmas -/

theorem mem_pySorted {s : String} {l : List String} : s ∈ pySorted l ↔ s ∈ l := by
  simp [pySorted, List.mem_insertionSort]

theorem sorted_pySorted (l : List String) : (pySorted l).Sorted (· ≤ ·) :=
  List.sorted_insertionSort _ l

theorem nodup_pySorted {l : List String} (h : l.Nodup) : (pySorted l).Nodup :=
  ((List.perm_insertionSort _ l).nodup_iff).mpr h

/-- In an association list whose keys are duplicate-free, `find?` keyed
on the first component recovers exactly the stored pair. -/
theorem find?_fst_eq_of_nodup {α β : Type} [DecidableEq α] :
    ∀ {l : List (α × β)} {a : α} {b : β},
      (l.map Prod.fst).Nodup → (a, b) ∈ l →
      l.find? (fun p => p.1 = a) = some (a, b) := by
  intro l
  induction l with
  | nil => intro a b _ hmem; simp at hmem
  | cons p l ih =>
    intro a b hnd hmem
    rcases List.mem_cons.mp hmem with h | h
    · subst h; simp [List.find?]
    · have hne : p.1 ≠ a := by
        intro hpa
        have : a ∈ l.map Prod.fst := List.mem_map.mpr ⟨(a, b), h, rfl⟩
        simp only [List.map_cons, List.nodup_cons] at hnd
        exact hnd.1 (hpa ▸ this)
      have hd : decide (p.1 = a) = false := by simpa using hne
      simp only [List.find?, hd]
      exact ih (by simpa using (List.nodup_cons.mp (by simpa using hnd)).2) h

theorem dictInsert_keys (d : List (String × Nat)) (k : String) (v : Nat) :
    (dictInsert d k v).map Prod.fst =
      if d.any (fun p => p.1 = k) then d.map Prod.fst else d.map Prod.fst ++ [k] := by
  unfold dictInsert
  split
  · rw [List.map_map]
    refine List.map_congr_left ?_
    intro p _
    by_cases hp : p.1 = k <;> simp [hp]
  · simp

theorem dictInsert_keys_nodup {d : List (String × Nat)} {k : String} {v : Nat}
    (h : (d.map Prod.fst).Nodup) : ((dictInsert d k v).map Prod.fst).Nodup := by
  rw [dictInsert_keys]
  split
  · exact h
  · rename_i hany
    have hk : k ∉ d.map Prod.fst := by
      intro hmem
      rcases List.mem_map.mp hmem with ⟨p, hp, hpk⟩
      exact hany (List.any_eq_true.mpr ⟨p, hp, by simp [hpk]⟩)
    simp [List.nodup_append, h, hk]

theorem profileChoices_keys_nodup (profiles : List (Nat × String)) :
    ((profileChoices profiles).map Prod.fst).Nodup := by
  unfold profileChoices
  suffices h : ∀ (ps : List (Nat × String)) (d : List (String × Nat)),
      (d.map Prod.fst).Nodup →
      ((ps.foldl (fun d pr => dictInsert d pr.2 pr.1) d).map Prod.fst).Nodup by
    exact h profiles [] (by simp)
  intro ps
  induction ps with
  | nil => intro d hd; simpa using hd
  | cons pr ps ih => intro d hd; exact ih _ (dictInsert_keys_nodup hd)

/-- The fold underlying `best1`, started from a seed candidate: it
returns a candidate whose score bounds the seed's score and the score of
every key. -/
theorem best1_aux (score : String → Nat) :
    ∀ (keys : List String) (b₀ : String) (s₀ : Nat),
      ∃ b s,
        keys.foldl (fun acc c =>
          match acc with
          | none => some (c, score c)
          | some (b, s) => if score c > s then some (c, score c) else some (b, s))
          (some (b₀, s₀)) = some (b, s) ∧
        ((b = b₀ ∧ s = s₀) ∨ (b ∈ keys ∧ s = score b)) ∧
        s₀ ≤ s ∧ ∀ k ∈ keys, score k ≤ s := by
  intro keys
  induction keys with
  | nil => intro b₀ s₀; exact ⟨b₀, s₀, rfl, Or.inl ⟨rfl, rfl⟩, le_refl _, by simp⟩
  | cons c keys ih =>
    intro b₀ s₀
    by_cases hc : score c > s₀
    · obtain ⟨b, s, heq, hb, hle, hmax⟩ := ih c (score c)
      refine ⟨b, s, ?_, ?_, ?_, ?_⟩
      · simpa [hc] using heq
      · rcases hb with ⟨hb1, hb2⟩ | ⟨hb1, hb2⟩
        · exact Or.inr ⟨by simp [hb1], by rw [hb2, hb1]⟩
        · exact Or.inr ⟨by simp [hb1], hb2⟩
      · exact le_trans (le_of_lt hc) hle
      · intro k hk
        rcases List.mem_cons.mp hk with h | h
        · subst h; exact hle
        · exact hmax k h
    · obtain ⟨b, s, heq, hb, hle, hmax⟩ := ih b₀ s₀
      refine ⟨b, s, ?_, ?_, hle, ?_⟩
      · simpa [hc] using heq
      · rcases hb with ⟨hb1, hb2⟩ | ⟨hb1, hb2⟩
        · exact Or.inl ⟨hb1, hb2⟩
        · exact Or.inr ⟨by simp [hb1], hb2⟩
      · intro k hk
        rcases List.mem_cons.mp hk with h | h
        · subst h; exact le_trans (Nat.le_of_not_lt hc) hle
        · exact hmax k h

/-- `best1` returns a key of the list, its score, and that score is
maximal among the keys. -/
theorem best1_spec {score : String → Nat} {keys : List String} {b : String}
    {s : Nat} (h : best1 score keys = some (b, s)) :
    b ∈ keys ∧ s = score b ∧ ∀ k ∈ keys, score k ≤ s := by
  cases keys with
  | nil => simp [best1] at h
  | cons c ks =>
    obtain ⟨b', s', heq, hb, hle, hmax⟩ := best1_aux score ks c (score c)
    have h' : best1 score (c :: ks) = some (b', s') := by
      simpa [best1, List.foldl_cons] using heq
    rw [h'] at h
    injection h with h
    injection h with hb1 hs1
    subst hb1; subst hs1
    refine ⟨?_, ?_, ?_⟩
    · rcases hb with ⟨hb1, _⟩ | ⟨hb1, _⟩
      · simp [hb1]
      · simp [hb1]
    · rcases hb with ⟨hb1, hb2⟩ | ⟨_, hb2⟩
      · rw [hb2, hb1]
      · exact hb2
    · intro k hk
      rcases List.mem_cons.mp hk with h | h
      · subst h; exact hle
      · exact hmax k h

/-! ## Claim theorems -/

/-- C2: `analyze_skill_gap` returns two lexicographically sorted,
duplicate-free lists; the first holds exactly the Mandatory skill names
missing from the current skills, the second exactly the remaining
distinct required names missing from both; the two are disjoint, their
union with the current skills covers every required name, and the spec's
scenario evaluates as stated. -/
theorem analyze_skill_gap_correct (current : List String)
    (required : List (String × String)) :
    ((analyze_skill_gap current required).1.Sorted (· ≤ ·) ∧
      (analyze_skill_gap current required).1.Nodup) ∧
    ((analyze_skill_gap current required).2.Sorted (· ≤ ·) ∧
      (analyze_skill_gap current required).2.Nodup) ∧
    (∀ s, s ∈ (analyze_skill_gap current required).1 ↔
      ((s, "Mandatory") ∈ required ∧ s ∉ current)) ∧
    (∀ s, s ∈ (analyze_skill_gap current required).2 ↔
      (s ∈ required.map Prod.fst ∧ (s, "Mandatory") ∉ required ∧ s ∉ current)) ∧
    (∀ s, ¬(s ∈ (analyze_skill_gap current required).1 ∧
      s ∈ (analyze_skill_gap current required).2)) ∧
    (∀ s, s ∈ required.map Prod.fst →
      s ∈ (analyze_skill_gap current required).1 ∨
      s ∈ (analyze_skill_gap current required).2 ∨ s ∈ current) ∧
    analyze_skill_gap ["Python", "SQL"]
      [("Python", "Mandatory"), ("Docker", "Mandatory"), ("Go", "Preferred")] =
      (["Docker"], ["Go"]) := by
  have hmem1 : ∀ s, s ∈ (analyze_skill_gap current required).1 ↔
      ((s, "Mandatory") ∈ required ∧ s ∉ current) := by
    intro s
    simp only [analyze_skill_gap, mem_pySorted, List.mem_filter,
      List.mem_dedup, List.mem_map, List.mem_filter, decide_eq_true_eq]
    constructor
    · rintro ⟨⟨p, ⟨hp, hpm⟩, hps⟩, hnc⟩
      refine ⟨?_, hnc⟩
      have : p = (s, "Mandatory") := Prod.ext hps hpm
      rwa [this] at hp
    · rintro ⟨hp, hnc⟩
      exact ⟨⟨(s, "Mandatory"), ⟨hp, rfl⟩, rfl⟩, hnc⟩
  have hmem2 : ∀ s, s ∈ (analyze_skill_gap current required).2 ↔
      (s ∈ required.map Prod.fst ∧ (s, "Mandatory") ∉ required ∧ s ∉ current) := by
    intro s
    simp only [analyze_skill_gap, mem_pySorted, List.mem_filter,
      List.mem_dedup, List.mem_map, List.mem_filter, decide_eq_true_eq,
      Bool.and_eq_true, decide_not, Bool.not_eq_true', decide_eq_false_iff_not]
    constructor
    · rintro ⟨⟨p, hp, hps⟩, hnm, hnc⟩
      refine ⟨⟨p, hp, hps⟩, ?_, hnc⟩
      intro hmand
      exact hnm ⟨(s, "Mandatory"), ⟨hmand, rfl⟩, rfl⟩
    · rintro ⟨⟨p, hp, hps⟩, hnm, hnc⟩
      refine ⟨⟨p, hp, hps⟩, ?_, hnc⟩
      rintro ⟨⟨q1, q2⟩, ⟨hq, hqm⟩, hqs⟩
      simp only at hqm hqs
      subst hqm; subst hqs
      exact hnm hq
  refine ⟨⟨?_, ?_⟩, ⟨?_, ?_⟩, hmem1, hmem2, ?_, ?_, by decide⟩
  · exact sorted_pySorted _
  · exact nodup_pySorted ((List.nodup_dedup _).filter _)
  · exact sorted_pySorted _
  · exact nodup_pySorted ((List.nodup_dedup _).filter _)
  · intro s ⟨h1, h2⟩
    exact ((hmem2 s).mp h2).2.1 ((hmem1 s).mp h1).1
  · intro s hs
    by_cases hc : s ∈ current
    · exact Or.inr (Or.inr hc)
    · by_cases hm : (s, "Mandatory") ∈ required
      · exact Or.inl ((hmem1 s).mpr ⟨hm, hc⟩)
      · exact Or.inr (Or.inl ((hmem2 s).mpr ⟨hs, hm, hc⟩))

/-- C2 (witness): the correctness theorem applied at the spec's
scenario, instantiating the coverage conjunct at the required skill
"Python", which is covered by the current skills. -/
theorem analyze_skill_gap_correct_witness :
    "Python" ∈ ([("Python", "Mandatory"), ("Docker", "Mandatory"),
      ("Go", "Preferred")].map Prod.fst) ∧
    ("Python" ∈ (analyze_skill_gap ["Python", "SQL"]
        [("Python", "Mandatory"), ("Docker", "Mandatory"),
          ("Go", "Preferred")]).1 ∨
      "Python" ∈ (analyze_skill_gap ["Python", "SQL"]
        [("Python", "Mandatory"), ("Docker", "Mandatory"),
          ("Go", "Preferred")]).2 ∨
      "Python" ∈ ["Python", "SQL"]) :=
  ⟨by decide,
   (analyze_skill_gap_correct ["Python", "SQL"]
      [("Python", "Mandatory"), ("Docker", "Mandatory"),
        ("Go", "Preferred")]).2.2.2.2.2.1 "Python" (by decide)⟩

/-- C1 (counterexample): in the spec's own scenario — "Jon" against
"John Smith" scoring 82 and "Jonathan Lee" scoring 81, both at or above
the cutoff 80 and neither above 95 — `get_user_profile` returns
`UNIQUE_MATCH` with the top candidate only, not `AMBIGUOUS` with both,
contradicting the claim. -/
theorem get_user_profile_jon_counterexample :
    get_user_profile scoreJon [(1, "John Smith"), (2, "Jonathan Lee")] =
      Verdict.UNIQUE_MATCH 1 ∧
    get_user_profile scoreJon [(1, "John Smith"), (2, "Jonathan Lee")] ≠
      Verdict.AMBIGUOUS [1, 2] ∧
    get_user_profile scoreJon [(1, "John Smith"), (2, "Jonathan Lee")] ≠
      Verdict.AMBIGUOUS [2, 1] ∧
    80 ≤ scoreJon "John Smith" ∧ 80 ≤ scoreJon "Jonathan Lee" ∧
    scoreJon "John Smith" ≤ 95 ∧ scoreJon "Jonathan Lee" ≤ 95 := by
  decide

/-- C1 (amended): identity resolution never returns `AMBIGUOUS` (the
implementation requests a single match with `limit=1` and has no
tight-confidence branch); it returns either `NO_MATCH` or
`UNIQUE_MATCH`, and whenever the best fuzzy match scores at or above the
base cutoff 80 — even when several candidates clear it and none exceeds
95 — it returns `UNIQUE_MATCH` with that top-scoring candidate alone. -/
theorem get_user_profile_amended (score : String → Nat)
    (profiles : List (Nat × String)) :
    (∀ cands, get_user_profile score profiles ≠ Verdict.AMBIGUOUS cands) ∧
    (get_user_profile score profiles = Verdict.NO_MATCH ∨
      ∃ pid, get_user_profile score profiles = Verdict.UNIQUE_MATCH pid) ∧
    (∀ b s pid,
      best1 score ((profileChoices profiles).map Prod.fst) = some (b, s) →
      80 ≤ s → (b, pid) ∈ profileChoices profiles →
      get_user_profile score profiles = Verdict.UNIQUE_MATCH pid ∧
      ∀ k ∈ (profileChoices profiles).map Prod.fst, score k ≤ s) := by
  have hkeysnd := profileChoices_keys_nodup profiles
  refine ⟨?_, ?_, ?_⟩
  · intro cands
    simp only [get_user_profile]
    rcases hb : best1 score ((profileChoices profiles).map Prod.fst) with _ | ⟨b, s⟩
    · simp
    · dsimp only
      by_cases h80 : s < 80
      · rw [if_pos h80]; simp
      · rw [if_neg h80]
        rcases hf : (profileChoices profiles).find? (fun p => p.1 = b) with _ | p <;>
          rw [hf] <;> simp
  · simp only [get_user_profile]
    rcases hb : best1 score ((profileChoices profiles).map Prod.fst) with _ | ⟨b, s⟩
    · exact Or.inl rfl
    · dsimp only
      by_cases h80 : s < 80
      · rw [if_pos h80]; exact Or.inl rfl
      · rw [if_neg h80]
        obtain ⟨hbmem, _, _⟩ := best1_spec hb
        obtain ⟨p, hp, hpb⟩ := List.mem_map.mp hbmem
        have hmem : (b, p.2) ∈ profileChoices profiles := by
          obtain ⟨p1, p2⟩ := p
          simp only at hpb
          subst hpb
          exact hp
        have hf := find?_fst_eq_of_nodup hkeysnd hmem
        rw [hf]
        exact Or.inr ⟨p.2, rfl⟩
  · intro b s pid hb h80 hmem
    obtain ⟨hbmem, _, hmax⟩ := best1_spec hb
    have hf : (profileChoices profiles).find? (fun q => q.1 = b) = some (b, pid) :=
      find?_fst_eq_of_nodup hkeysnd hmem
    constructor
    · simp only [get_user_profile]
      rw [hb]
      dsimp only
      rw [if_neg (by omega), hf]
    · exact hmax

/-- C1 (witness): the amended theorem applied to the spec's scenario —
the top candidate "John Smith" (score 82, at least the cutoff 80) is
returned as `UNIQUE_MATCH`, and the runner-up "Jonathan Lee" scores no
higher. -/
theorem get_user_profile_amended_witness :
    get_user_profile scoreJon [(1, "John Smith"), (2, "Jonathan Lee")] =
      Verdict.UNIQUE_MATCH 1 ∧
    scoreJon "Jonathan Lee" ≤ 82 :=
  ⟨((get_user_profile_amended scoreJon [(1, "John Smith"), (2, "Jonathan Lee")]).2.2
      "John Smith" 82 1 (by decide) (by decide) (by decide)).1,
   ((get_user_profile_amended scoreJon [(1, "John Smith"), (2, "Jonathan Lee")]).2.2
      "John Smith" 82 1 (by decide) (by decide) (by decide)).2
      "Jonathan Lee" (by decide)⟩

/-- C4: with an empty target/required skill collection both matching
operations return the empty result immediately (the guard at
src/main.py:476 and src/main.py:516), so the division by the collection
size is never reached. -/
theorem find_matching_empty_required (profiles : List Profile)
    (jobs : List Job) (threshold threshold' : ℚ) :
    find_matching_candidates profiles [] threshold = [] ∧
    find_matching_jobs jobs [] threshold' = [] := by
  constructor <;> simp [find_matching_candidates, find_matching_jobs]

/-- C6: the dispatch loop of `execute_general_query` processes tasks
strictly in decomposition order and returns exactly the truthy handler
results in that order — equivalently it is `filter handlerTruthy` after
`map handle` — so falsy results are silently dropped and the output list
is never longer than the task list. -/
theorem execute_general_query_order {τ : Type} (handle : τ → HandlerResult)
    (tasks : List τ) :
    execute_general_query_loop handle tasks =
      (tasks.map handle).filter handlerTruthy ∧
    (execute_general_query_loop handle tasks).length ≤ tasks.length := by
  have h : execute_general_query_loop handle tasks =
      (tasks.map handle).filter handlerTruthy := by
    induction tasks with
    | nil => rfl
    | cons t ts ih =>
      simp only [execute_general_query_loop, List.map_cons, List.filter_cons]
      cases htr : handlerTruthy (handle t) <;> simp [htr, ih]
  refine ⟨h, ?_⟩
  rw [h]
  calc ((tasks.map handle).filter handlerTruthy).length
      ≤ (tasks.map handle).length := List.length_filter_le _ _
    _ = tasks.length := List.length_map _ _

/-- C10: both match-table queries carry `ORDER BY ... DESC LIMIT 50`, so
the returned list always holds at most 50 rows, sorted by match
percentage descending, no matter how many profiles or jobs clear the
threshold; hence the reported "Found N" count never exceeds 50. -/
theorem find_matching_limit_50 (profiles : List Profile) (jobs : List Job)
    (required_skills user_skills : List String) (threshold threshold' : ℚ) :
    (find_matching_candidates profiles required_skills threshold).length ≤ 50 ∧
    (find_matching_candidates profiles required_skills threshold).Sorted pctGE ∧
    (find_matching_jobs jobs user_skills threshold').length ≤ 50 ∧
    (find_matching_jobs jobs user_skills threshold').Sorted pctGE := by
  refine ⟨?_, ?_, ?_, ?_⟩
  · unfold find_matching_candidates
    split
    · simp
    · exact List.length_take_le _ _
  · unfold find_matching_candidates
    split
    · exact List.sorted_nil
    · exact (List.sorted_insertionSort _ _).sublist (List.take_sublist _ _)
  · unfold find_matching_jobs
    split
    · simp
    · exact List.length_take_le _ _
  · unfold find_matching_jobs
    split
    · exact List.sorted_nil
    · exact (List.sorted_insertionSort _ _).sublist (List.take_sublist _ _)

/-- C5 (counterexample): with one skill marked Mandatory and another
Preferred, `run_skill_forecast` targets the full required-skill set,
not the Mandatory subset the claim describes. -/
theorem run_skill_forecast_targets_counterexample :
    run_skill_forecast_targets [("A", "Mandatory"), ("B", "Preferred")] =
      some ["A", "B"] ∧
    forecastTargetsSpec [("A", "Mandatory"), ("B", "Preferred")] = some ["A"] ∧
    run_skill_forecast_targets [("A", "Mandatory"), ("B", "Preferred")] ≠
      forecastTargetsSpec [("A", "Mandatory"), ("B", "Preferred")] := by
  decide

/-- C5 (amended): whenever market data exists for the title,
`run_skill_forecast` resolves the target skill list to the set of all
distinct required skill names for that title — ignoring the
Mandatory/Preferred marking entirely rather than preferring the
Mandatory subset. -/
theorem run_skill_forecast_targets_full (skills : List (String × String))
    (h : skills ≠ []) :
    run_skill_forecast_targets skills ≠ none ∧
    ((run_skill_forecast_targets skills).getD []).Nodup ∧
    ∀ n, n ∈ (run_skill_forecast_targets skills).getD [] ↔
      n ∈ skills.map Prod.fst := by
  unfold run_skill_forecast_targets
  rw [if_neg h]
  exact ⟨by simp, List.nodup_dedup _, fun n => by simp [List.mem_dedup]⟩

/-- C5 (witness): the amended theorem at the two-skill example: the
Preferred skill "B" is a target even though "A" is marked Mandatory. -/
theorem run_skill_forecast_targets_full_witness :
    "B" ∈ (run_skill_forecast_targets
        [("A", "Mandatory"), ("B", "Preferred")]).getD [] ↔
      "B" ∈ ([("A", "Mandatory"), ("B", "Preferred")].map Prod.fst) :=
  (run_skill_forecast_targets_full [("A", "Mandatory"), ("B", "Preferred")]
    (by decide)).2.2 "B"

/-- C7 (counterexample): an Analytics request over the JOBS table whose
metric/group-by combination matches no calculation (metric AVG) is
redirected to the universal job search instead of producing the
"no calculation module" message the claim requires. -/
theorem run_analytics_query_jobs_redirect_counterexample :
    run_analytics_query
        ⟨some "AVG", some "JOBS", none, some ["Python"], none, 10, none,
          none, none⟩ =
      AnalyticsResult.jobSearchRedirect none none (some ["Python"]) ∧
    run_analytics_query
        ⟨some "AVG", some "JOBS", none, some ["Python"], none, 10, none,
          none, none⟩ ≠
      AnalyticsResult.noCalculationModule := by
  decide

/-- C7 (amended): `run_analytics_query` returns the explicit
"no calculation module for that combination" message exactly when the
request matches none of the three PROFILES calculations, its target
table is not JOBS (every JOBS request is instead redirected to the
universal job search), and its metric is not COMPARE. -/
theorem run_analytics_query_noModule_iff (p : AnalyticsParams) :
    run_analytics_query p = AnalyticsResult.noCalculationModule ↔
      (p.target_table ≠ some "JOBS" ∧ p.metric ≠ some "COMPARE" ∧
        ¬(p.target_table = some "PROFILES" ∧
          ((p.metric = some "AVG" ∧ skillListTruthy p.target_skill) ∨
            ((p.metric = some "RANK" ∨ p.metric = some "COUNT") ∧
              (p.group_by = some "Company" ∨ p.group_by = some "Headline"))))) := by
  unfold run_analytics_query
  split_ifs with h1 h2 h3 h4 h5 h6 h7 <;> simp_all

/-- C8: the claim's invariant is right and the code violates it —
submitting a duplicated skill name to `add_job` or `update_job` inserts
one `Job_Skills_Mapping` row per occurrence, because the MySQL schema
(db_setup.py:208-215) keys the table by the surrogate `MapID` with no
uniqueness over `(JobID, SkillID)` (unlike the Postgres twin table,
whose composite primary key enforces exactly the claimed invariant).
Evaluated at the failing input: two identical rows for one skill. -/
theorem add_update_job_duplicate_rows :
    add_job_mapping_rows [(1, "Python")] ["Python", "Python"]
        [("Python", "Mandatory")] = [(1, "Mandatory"), (1, "Mandatory")] ∧
    update_job_mapping_rows [(1, "Python")] ["Python", "Python"]
        [("Python", "Mandatory")] = [(1, "Mandatory"), (1, "Mandatory")] := by
  decide

theorem round2_nonneg {q : ℚ} (h : 0 ≤ q) : 0 ≤ round2 q := by
  unfold round2
  have h0 : (0 : ℤ) ≤ round (q * 100) := by
    rw [round_eq]
    exact Int.le_floor.mpr (by push_cast; linarith)
  exact div_nonneg (by exact_mod_cast h0) (by norm_num)

theorem round2_le_100 {q : ℚ} (h : q ≤ 100) : round2 q ≤ 100 := by
  unfold round2
  rw [div_le_iff₀ (by norm_num : (0 : ℚ) < 100)]
  have h1 : round (q * 100) ≤ round ((10000 : ℚ)) := by
    rw [round_eq, round_eq]
    exact Int.floor_mono (by linarith)
  have h2 : round ((10000 : ℚ)) = 10000 := by norm_num [round_eq]
  have h3 : round (q * 100) ≤ 10000 := le_trans h1 (le_of_eq h2)
  calc ((round (q * 100) : ℤ) : ℚ) ≤ ((10000 : ℤ) : ℚ) := by exact_mod_cast h3
    _ = 100 * 100 := by norm_num

theorem round2_100 : round2 100 = 100 := by norm_num [round2, round_eq]

/-- C3 (counterexample): `find_matching_candidates` does not round —
with one of three distinct required skills matched it reports the exact
value 100/3, while the percentage the claim describes (rounded to 2
decimal places) is 33.33; the two differ. -/
theorem candidate_rounding_counterexample :
    candidateMatchPercentage ["A"] ["A", "B", "C"] = 100 / 3 ∧
    specMatchPercentage ["A"] ["A", "B", "C"] = 3333 / 100 ∧
    candidateMatchPercentage ["A"] ["A", "B", "C"] ≠
      specMatchPercentage ["A"] ["A", "B", "C"] := by
  have h1 : ((["A"] : List String).filter
      (fun s => s ∈ (["A", "B", "C"] : List String))).dedup.length = 1 := by decide
  have h2 : (["A", "B", "C"] : List String).dedup.length = 3 := by decide
  have h3 : (["A", "B", "C"] : List String).length = 3 := by decide
  refine ⟨?_, ?_, ?_⟩
  · rw [candidateMatchPercentage, h1, h3]; norm_num
  · rw [specMatchPercentage, h1, h2]; norm_num [round2, round_eq]
  · rw [candidateMatchPercentage, specMatchPercentage, h1, h2, h3]
    norm_num [round2, round_eq]

/-- C3 (amended): for a duplicate-free nonempty target skill list the
candidate-matching percentage equals the exact (unrounded) value
(distinct matched names)/(target size)·100 and lies in [0, 100], being
exactly 100 on a superset; the job-matching percentage is the analogous
ratio over the job's mapping rows rounded to 2 decimal places, likewise
in [0, 100] and exactly 100 on a superset; and every row either table
function returns carries exactly that percentage.  Only the job side
rounds to 2 decimal places — the candidate side does not (see the
counterexample). -/
theorem match_percentage_amended (S T : List String) (rows : List SkillRow)
    (profiles : List Profile) (jobs : List Job) (threshold threshold' : ℚ)
    (hT : T ≠ []) (hTnd : T.Nodup)
    (hids : (rows.map SkillRow.skillId).Nodup) (hrows : rows ≠ []) :
    (0 ≤ candidateMatchPercentage S T ∧ candidateMatchPercentage S T ≤ 100) ∧
    (T ⊆ S → candidateMatchPercentage S T = 100) ∧
    (0 ≤ jobMatchPercentage S rows ∧ jobMatchPercentage S rows ≤ 100) ∧
    ((∀ r ∈ rows, r.skillName ∈ S) → jobMatchPercentage S rows = 100) ∧
    (∀ pr pct, (pr, pct) ∈ find_matching_candidates profiles T threshold →
      pct = candidateMatchPercentage pr.skills T) ∧
    (∀ j pct, (j, pct) ∈ find_matching_jobs jobs S threshold' →
      pct = jobMatchPercentage S j.skillRows) := by
  have hTlen : 0 < (T.length : ℚ) := by
    have := List.length_pos.mpr hT
    exact_mod_cast this
  have hden : (rows.map SkillRow.skillId).dedup.length = rows.length := by
    rw [List.Nodup.dedup hids, List.length_map]
  have hrlen : 0 < (rows.length : ℚ) := by
    have := List.length_pos.mpr hrows
    exact_mod_cast this
  have hraw0 : 0 ≤ jobRawPercentage S rows := by
    unfold jobRawPercentage
    positivity
  have hraw100 : jobRawPercentage S rows ≤ 100 := by
    unfold jobRawPercentage
    rw [hden]
    have hnum : ((rows.filter (fun r => r.skillName ∈ S)).length : ℚ) ≤
        (rows.length : ℚ) := by
      exact_mod_cast List.length_filter_le _ _
    rw [div_mul_eq_mul_div, div_le_iff₀ hrlen]
    nlinarith
  refine ⟨⟨?_, ?_⟩, ?_, ⟨?_, ?_⟩, ?_, ?_, ?_⟩
  · unfold candidateMatchPercentage
    positivity
  · unfold candidateMatchPercentage
    rw [div_le_iff₀ hTlen]
    have hnum : (S.filter (fun s => s ∈ T)).dedup.length ≤ T.length := by
      calc (S.filter (fun s => s ∈ T)).dedup.length
          = (S.filter (fun s => s ∈ T)).toFinset.card := by
            rw [List.card_toFinset]
        _ ≤ T.toFinset.card := by
            apply Finset.card_le_card
            intro x hx
            rw [List.mem_toFinset] at hx ⊢
            have := List.mem_filter.mp hx
            simpa using this.2
        _ = T.dedup.length := by rw [List.card_toFinset]
        _ ≤ T.length := (List.dedup_sublist T).length_le
    have hc : ((S.filter (fun s => s ∈ T)).dedup.length : ℚ) ≤ (T.length : ℚ) := by
      exact_mod_cast hnum
    nlinarith
  · intro hsub
    have hfe : (S.filter (fun s => s ∈ T)).toFinset = T.toFinset := by
      ext x
      simp only [List.mem_toFinset, List.mem_filter, decide_eq_true_eq]
      exact ⟨fun h => h.2, fun h => ⟨hsub h, h⟩⟩
    have hnum : ((S.filter (fun s => s ∈ T)).dedup.length : ℚ) = (T.length : ℚ) := by
      have heq : (S.filter (fun s => s ∈ T)).dedup.length = T.length := by
        calc (S.filter (fun s => s ∈ T)).dedup.length
            = (S.filter (fun s => s ∈ T)).toFinset.card := by rw [List.card_toFinset]
          _ = T.toFinset.card := by rw [hfe]
          _ = T.dedup.length := by rw [List.card_toFinset]
          _ = T.length := by rw [List.Nodup.dedup hTnd]
      exact_mod_cast heq
    unfold candidateMatchPercentage
    rw [hnum]
    field_simp
  · exact round2_nonneg hraw0
  · exact round2_le_100 hraw100
  · intro hall
    have hfilter : rows.filter (fun r => r.skillName ∈ S) = rows :=
      List.filter_eq_self.mpr (fun r hr => by simpa using hall r hr)
    unfold jobMatchPercentage jobRawPercentage
    rw [hfilter, hden, div_self (ne_of_gt hrlen), one_mul, round2_100]
  · intro pr pct hmem
    unfold find_matching_candidates at hmem
    rw [if_neg hT] at hmem
    have h2 := (List.mem_insertionSort pctGE).mp (List.mem_of_mem_take hmem)
    obtain ⟨p, _, hf⟩ := List.mem_filterMap.mp h2
    split_ifs at hf; simp at hf
    rw [← hf.2.1]
    exact hf.2.2.symm
  · intro j pct hmem
    unfold find_matching_jobs at hmem
    by_cases hS : S = []
    · rw [if_pos hS] at hmem
      simp at hmem
    · rw [if_neg hS] at hmem
      have h2 := (List.mem_insertionSort pctGE).mp (List.mem_of_mem_take hmem)
      obtain ⟨jj, _, hf⟩ := List.mem_filterMap.mp h2
      split_ifs at hf; simp at hf
      rw [← hf.1]
      exact hf.2.symm

/-- C3 (witness): the amended theorem at a concrete superset instance —
a candidate holding Python and SQL scores exactly 100 against the target
[Python], and a job whose single mapping row names Python scores exactly
100 against those user skills. -/
theorem match_percentage_amended_witness :
    candidateMatchPercentage ["Python", "SQL"] ["Python"] = 100 ∧
    jobMatchPercentage ["Python", "SQL"] [⟨1, "Python", "Mandatory"⟩] = 100 :=
  ⟨(match_percentage_amended ["Python", "SQL"] ["Python"]
      [⟨1, "Python", "Mandatory"⟩] [] [] 0 0 (by decide) (by decide)
      (by decide) (by decide)).2.1 (by intro a ha; simp at ha; simp [ha]),
   (match_percentage_amended ["Python", "SQL"] ["Python"]
      [⟨1, "Python", "Mandatory"⟩] [] [] 0 0 (by decide) (by decide)
      (by decide) (by decide)).2.2.2.1 (by decide)⟩

theorem filterMap_eq_map_of_forall {α β : Type} (l : List α) (g : α → Option β)
    (f : α → β) (h : ∀ a ∈ l, g a = some (f a)) : l.filterMap g = l.map f := by
  induction l with
  | nil => rfl
  | cons a l ih =>
    have ha := h a (List.mem_cons_self a l)
    simp [List.filterMap_cons, ha,
      ih (fun x hx => h x (List.mem_cons_of_mem a hx))]

/-- C9 (counterexample): `register_new_user` silently skips submitted
skill names absent from the `Skills` table (the `WHERE SkillName IN`
lookup simply finds no row), so a profile registered with the skill set
\x7bNotASkill, Python\x7d over a vocabulary holding only Python lists
exactly \x7bPython\x7d afterwards, not the set it was created with. -/
theorem register_roundtrip_counterexample :
    "NotASkill" ∈ (["NotASkill", "Python"] : List String) ∧
    "NotASkill" ∉ profileSkillNames
      (register_new_user ⟨[(1, "Python")], [], [], 1⟩ "Ada" "Dev" 3
        ["NotASkill", "Python"] "Acme" "Pune") 1 ∧
    profileSkillNames
      (register_new_user ⟨[(1, "Python")], [], [], 1⟩ "Ada" "Dev" 3
        ["NotASkill", "Python"] "Acme" "Pune") 1 = ["Python"] := by
  decide

/-- C9 (amended): provided A and B are names present in the skill
vocabulary (whose ids are unique, as the serial primary key guarantees)
and the new serial profile id is fresh for the mapping table, a profile
registered with skill set \x7bA, B\x7d immediately lists exactly the
skill set \x7bA, B\x7d, appears in the profile listing, and deleting it
removes it from the listing. -/
theorem register_roundtrip_amended (st : PGStore) (A B nm hd co loc : String)
    (exp : Nat) (hA : A ∈ st.skillsTable.map Prod.snd)
    (hB : B ∈ st.skillsTable.map Prod.snd)
    (hids : (st.skillsTable.map Prod.fst).Nodup)
    (hfresh : ∀ m ∈ st.mappingTable, m.1 ≠ st.nextProfileId) :
    (profileSkillNames (register_new_user st nm hd exp [A, B] co loc)
        st.nextProfileId).toFinset = {A, B} ∧
    st.nextProfileId ∈
      listedProfileIds (register_new_user st nm hd exp [A, B] co loc) ∧
    st.nextProfileId ∉ listedProfileIds
      (delete_profile (register_new_user st nm hd exp [A, B] co loc)
        st.nextProfileId) := by
  refine ⟨?_, ?_, ?_⟩
  · have hmap : (register_new_user st nm hd exp [A, B] co loc).mappingTable =
        st.mappingTable ++
          ((st.skillsTable.filter (fun r => r.2 ∈ [A, B])).map Prod.fst).map
            (fun sid => (st.nextProfileId, sid)) := by
      simp [register_new_user]
    have hsk : (register_new_user st nm hd exp [A, B] co loc).skillsTable =
        st.skillsTable := rfl
    unfold profileSkillNames
    rw [hmap, hsk, List.filter_append]
    have h1 : st.mappingTable.filter
        (fun m => m.1 = st.nextProfileId) = [] := by
      rw [List.filter_eq_nil_iff]
      intro m hm
      simpa using hfresh m hm
    have h2 : (((st.skillsTable.filter (fun r => r.2 ∈ [A, B])).map Prod.fst).map
          (fun sid => (st.nextProfileId, sid))).filter
        (fun m => m.1 = st.nextProfileId) =
        ((st.skillsTable.filter (fun r => r.2 ∈ [A, B])).map Prod.fst).map
          (fun sid => (st.nextProfileId, sid)) := by
      rw [List.filter_eq_self]
      intro m hm
      obtain ⟨sid, _, rfl⟩ := List.mem_map.mp hm
      simp
    rw [h1, h2, List.nil_append, List.filterMap_map, List.filterMap_map]
    have h3 : (st.skillsTable.filter (fun r => r.2 ∈ [A, B])).filterMap
        (((fun m => (st.skillsTable.find? (fun r => r.1 = m.2)).map Prod.snd) ∘
          (fun sid => (st.nextProfileId, sid))) ∘ Prod.fst) =
        (st.skillsTable.filter (fun r => r.2 ∈ [A, B])).map Prod.snd := by
      apply filterMap_eq_map_of_forall
      intro r hr
      have hrt : r ∈ st.skillsTable := List.mem_of_mem_filter hr
      have hfind : st.skillsTable.find? (fun x => x.1 = r.1) = some (r.1, r.2) :=
        find?_fst_eq_of_nodup hids (by simpa using hrt)
      simp [Function.comp, hfind]
    rw [h3]
    ext x
    simp only [List.mem_toFinset, List.mem_map, List.mem_filter,
      Finset.mem_insert, Finset.mem_singleton, decide_eq_true_eq]
    constructor
    · rintro ⟨r, ⟨_, hmem⟩, rfl⟩
      simpa using hmem
    · rintro (rfl | rfl)
      · obtain ⟨r, hr, hrx⟩ := List.mem_map.mp hA
        exact ⟨r, ⟨hr, by simp [hrx]⟩, hrx⟩
      · obtain ⟨r, hr, hrx⟩ := List.mem_map.mp hB
        exact ⟨r, ⟨hr, by simp [hrx]⟩, hrx⟩
  · unfold listedProfileIds register_new_user
    simp
  · unfold listedProfileIds delete_profile
    simp only [List.mem_map]
    rintro ⟨p, hp, hpe⟩
    have hne := (List.mem_filter.mp hp).2
    simp only [decide_eq_true_eq] at hne
    exact hne hpe

/-- C9 (witness): the amended round-trip at a concrete store — a
profile registered with \x7bGo, SQL\x7d over a vocabulary holding both
lists exactly \x7bGo, SQL\x7d, is listed, and disappears from the
listing after deletion. -/
theorem register_roundtrip_amended_witness :
    (profileSkillNames (register_new_user ⟨[(1, "Go"), (2, "SQL")], [], [], 5⟩
        "Eve" "Dev" 2 ["Go", "SQL"] "Acme" "Pune") 5).toFinset =
      ({"Go", "SQL"} : Finset String) ∧
    5 ∈ listedProfileIds (register_new_user ⟨[(1, "Go"), (2, "SQL")], [], [], 5⟩
        "Eve" "Dev" 2 ["Go", "SQL"] "Acme" "Pune") ∧
    5 ∉ listedProfileIds (delete_profile (register_new_user
        ⟨[(1, "Go"), (2, "SQL")], [], [], 5⟩ "Eve" "Dev" 2 ["Go", "SQL"]
        "Acme" "Pune") 5) :=
  register_roundtrip_amended ⟨[(1, "Go"), (2, "SQL")], [], [], 5⟩ "Go" "SQL"
    "Eve" "Dev" "Acme" "Pune" 2 (by decide) (by decide) (by decide)
    (by intro m hm; simp at hm)

end Spark
